import Mathlib

/-!
Shallow embedding of the session-scoped conversation relay in
`src/backend/app/main.py` (FastAPI service over an Ollama backend).

Modelling conventions:
* `datetime.now()` is a logical clock: each call returns the current tick
  and advances it by one.
* the Python `dict` `chat_sessions` is an insertion-ordered association
  list; assignment replaces in place or appends at the end, deletion
  filters the key out — exactly the observable behaviour of a `dict`.
* `uuid.uuid4()` is an abstract fresh-identifier generator, modelled by a
  counter rendered into a string whose length grows with the counter.
* HTTP/network outcomes of the backend are inputs: the blocking backend is
  a function from (model, messages) to a `CompleteResult`; the streaming
  backend is a function from (model, messages) to the list of raw lines
  it emits before the connection ends.
* exceptions follow Python semantics: `fastapi.HTTPException` is a
  subclass of `Exception`, so an `HTTPException` raised inside the `try`
  of `chat_with_model` / `chat_stream` is caught by the trailing
  `except Exception` clause and re-raised as status 500 with the original
  rendered into the detail string.
-/

namespace Talkflow

/-- One stored chat message (`{"role": .., "content": .., "timestamp": ..}`). -/
structure Message where
  role : String
  content : String
  timestamp : Nat
deriving Repr, DecidableEq

/-- One session record held in `chat_sessions`. -/
structure Session where
  model : String
  messages : List Message
  created_at : Nat
  last_updated : Nat
deriving Repr, DecidableEq

/-- Global mutable state: the `chat_sessions` dict, the logical clock for
`datetime.now()`, and the counter driving the uuid generator. -/
structure St where
  sessions : List (String × Session)
  clock : Nat
  nextId : Nat
deriving Repr, DecidableEq

/-- `datetime.now()`: returns the current tick and advances the clock. -/
def now (st : St) : Nat × St :=
  (st.clock, { st with clock := st.clock + 1 })

/-- `uuid.uuid4()` modelled as an abstract injective generator; the length of
the produced identifier exceeds the counter, which gives freshness against
any store whose keys are bounded by the counter. -/
def genId (n : Nat) : String :=
  String.mk (List.replicate (n + 1) 's')

/-- `d[k] = v` on an insertion-ordered dict: replace in place if the key is
present, otherwise append at the end. -/
def setSession : List (String × Session) → String → Session → List (String × Session)
  | [], k, v => [(k, v)]
  | p :: rest, k, v =>
    if p.1 = k then (k, v) :: rest else p :: setSession rest k v

/-- `d.get(k)` / `k in d` on the sessions dict: first (only) entry whose
key matches. -/
def lookupS : List (String × Session) → String → Option Session
  | [], _ => none
  | p :: rest, k => if p.1 = k then some p.2 else lookupS rest k

/-- `session_id in chat_sessions` / `chat_sessions[session_id]`. -/
def findSession (st : St) (sid : String) : Option Session :=
  lookupS st.sessions sid

/-- Python truthiness of an `Optional[str]`: `None` and `""` are falsy. -/
def truthy : Option String → Bool
  | none => false
  | some s => !(s == "")

/-- `create_session(model)` from the source: fresh id, empty message list,
both timestamps set to now (two separate `datetime.now()` calls). -/
def create_session (model : String) (st : St) : String × St :=
  let sid := genId st.nextId
  let (t1, st1) := now st
  let (t2, st2) := now st1
  (sid, { st2 with
            sessions := setSession st2.sessions sid
              { model := model, messages := [], created_at := t1, last_updated := t2 },
            nextId := st2.nextId + 1 })

/-- `get_session_messages(session_id)` from the source: project the stored
messages to `(role, content)` pairs, `[]` when the session is unknown. -/
def get_session_messages (sid : String) (st : St) : List (String × String) :=
  match findSession st sid with
  | none => []
  | some s => s.messages.map (fun m => (m.role, m.content))

/-- The message list actually sent to the backend: the projection of the
stored history with, when `system_prompt` is truthy, the synthetic
system-role entry inserted at position 0 (`messages.insert(0, ...)`). -/
def projectedMessages (sys : Option String) (sid : String) (st : St) : List (String × String) :=
  let messages := get_session_messages sid st
  if truthy sys then ("system", sys.getD ("")) :: messages else messages

/-- Body of a `POST /api/chat` or `/api/chat/stream` request. -/
structure ChatRequest where
  message : String
  model : String
  session_id : Option String := none
  system_prompt : Option String := none

/-- Outcome of the blocking backend call in `chat_with_model`:
`httpx.RequestError`, a non-success status from `raise_for_status`, a
response missing `message.content` (raises `KeyError`, caught by the
generic handler), or a success carrying the assistant content. -/
inductive CompleteResult where
  | unreachable
  | httpError (status : Nat) (body : String)
  | malformed
  | success (content : String)

/-- The `ChatResponse` pydantic model. -/
structure ChatResponse where
  response : String
  session_id : String
  model : String
  timestamp : Nat
deriving Repr, DecidableEq

/-- An error response: HTTP status code plus detail string. -/
abbrev Err := Nat × String

/-- The trailing `except Exception` of `chat_with_model` re-wrapping an
`HTTPException` raised inside the `try`: `str(e)` of a Starlette
`HTTPException` renders as `"{status}: {detail}"`. -/
def wrapChat (e : Err) : Err :=
  (500, "Chat error: " ++ toString e.1 ++ ": " ++ e.2)

/-- `POST /api/chat` (`chat_with_model`). The backend double maps the
requested model and projected message list to a `CompleteResult`. -/
def chat_with_model (req : ChatRequest)
    (backend : String → List (String × String) → CompleteResult)
    (st : St) : Except Err ChatResponse × St :=
  -- session_id = request.session_id or create_session(request.model)
  let (sid, st1) :=
    if truthy req.session_id then (req.session_id.getD (""), st)
    else create_session req.model st
  match findSession st1 sid with
  | none =>
    -- raise HTTPException(404, "Session not found"), caught by except Exception
    (Except.error (wrapChat (404, "Session not found")), st1)
  | some session =>
    if session.model = req.model then
      let (t1, st2) := now st1
      let session1 :=
        { session with messages :=
            session.messages ++ [({ role := "user", content := req.message, timestamp := t1 } : Message)] }
      let st3 := { st2 with sessions := setSession st2.sessions sid session1 }
      match backend req.model (projectedMessages req.system_prompt sid st3) with
      | CompleteResult.unreachable =>
        (Except.error (503, "Ollama server is not available"), st3)
      | CompleteResult.httpError code body =>
        (Except.error (code, "Ollama error: " ++ body), st3)
      | CompleteResult.malformed =>
        -- KeyError from data["message"]["content"], caught by except Exception
        (Except.error (500, "Chat error: message"), st3)
      | CompleteResult.success content =>
        let (t2, st4) := now st3
        let session2 :=
          { session1 with messages :=
              session1.messages ++ [({ role := "assistant", content := content, timestamp := t2 } : Message)] }
        let (t3, st5) := now st4
        let session3 := { session2 with last_updated := t3 }
        let st6 := { st5 with sessions := setSession st5.sessions sid session3 }
        let (t4, st7) := now st6
        (Except.ok { response := content, session_id := sid, model := req.model, timestamp := t4 },
         st7)
    else
      -- raise HTTPException(400, "Model mismatch with session"), caught by except Exception
      (Except.error (wrapChat (400, "Model mismatch with session")), st1)

/-- One raw line of the streaming backend response, as consumed by
`response.aiter_lines()`: an empty line (skipped by `if line:`), a line
that fails `json.loads` (skipped by the `except json.JSONDecodeError`
handler), or a decoded record with an optional
`data["message"]["content"]` fragment and the `data.get("done", False)`
flag. -/
inductive Line where
  | empty
  | noise
  | record (content : Option String) (done : Bool)
deriving Repr, DecidableEq

/-- One server-sent event yielded by `generate()`: a content chunk or the
final done marker, each carrying the session id. -/
inductive Event where
  | chunk (content : String) (sid : String)
  | done (sid : String)
deriving Repr, DecidableEq

/-- The commit performed when a record with `done` true is decoded:
append the accumulated full response as an assistant message and advance
`last_updated` (two separate `datetime.now()` calls, message timestamp
first). -/
def commitAssistant (sid : String) (full : String) (st : St) : St :=
  match findSession st sid with
  | none => st
  | some s =>
    let (t1, st1) := now st
    let (t2, st2) := now st1
    let s1 : Session :=
      { s with
          messages := s.messages ++ [({ role := "assistant", content := full, timestamp := t1 } : Message)],
          last_updated := t2 }
    { st2 with sessions := setSession st2.sessions sid s1 }

/-- The loop body of `generate()` in `chat_stream`: fold over the incoming
lines, yield a chunk event for every decoded content fragment while
accumulating the concatenation in `full`, commit and yield the done event
at the first record whose done flag is true, and stop there; noise and
empty lines are skipped; if the lines run out first, nothing is committed. -/
def runStream (sid : String) (full : String) (st : St) : List Line → List Event × St
  | [] => ([], st)
  | Line.empty :: rest => runStream sid full st rest
  | Line.noise :: rest => runStream sid full st rest
  | Line.record c d :: rest =>
    let evs := match c with
      | some cc => [Event.chunk cc sid]
      | none => []
    let full1 := match c with
      | some cc => full ++ cc
      | none => full
    if d then
      (evs ++ [Event.done sid], commitAssistant sid full1 st)
    else
      let r := runStream sid full1 st rest
      (evs ++ r.1, r.2)

/-- `POST /api/chat/stream` (`chat_stream`). The streaming backend double
maps the requested model and projected message list to the raw lines the
connection delivers before it ends. Note the source performs no
model-mismatch check on this path. The `HTTPException(404)` raised inside
the `try` is caught by the trailing `except Exception` and re-raised as
status 500 (`str(e)` renders as `"404: Session not found"`). -/
def chat_stream (req : ChatRequest)
    (backend : String → List (String × String) → List Line)
    (st : St) : Except Err (List Event) × St :=
  let (sid, st1) :=
    if truthy req.session_id then (req.session_id.getD (""), st)
    else create_session req.model st
  match findSession st1 sid with
  | none =>
    (Except.error (500, "Streaming error: 404: Session not found"), st1)
  | some session =>
    let (t1, st2) := now st1
    let session1 :=
      { session with messages :=
          session.messages ++ [({ role := "user", content := req.message, timestamp := t1 } : Message)] }
    let st3 := { st2 with sessions := setSession st2.sessions sid session1 }
    let r := runStream sid ("") st3 (backend req.model (projectedMessages req.system_prompt sid st3))
    (Except.ok r.1, r.2)

/-- The `SessionInfo` pydantic model returned by `GET /api/sessions`. -/
structure SessionInfo where
  session_id : String
  model : String
  created_at : Nat
  last_updated : Nat
  message_count : Nat
deriving Repr, DecidableEq

/-- The summary built for one stored session. -/
def sessionInfoOf (p : String × Session) : SessionInfo :=
  { session_id := p.1, model := p.2.model, created_at := p.2.created_at,
    last_updated := p.2.last_updated, message_count := p.2.messages.length }

/-- The comparison realized by `key=lambda x: x.last_updated, reverse=True`. -/
def luDesc (a b : SessionInfo) : Bool :=
  decide (b.last_updated ≤ a.last_updated)

/-- `GET /api/sessions` (`list_sessions`): one summary per stored session
in dict insertion order, then `sorted(..., key=lambda x: x.last_updated,
reverse=True)` — Python sort is stable, so this is a stable mergesort
under the reversed comparison. -/
def list_sessions (st : St) : List SessionInfo :=
  (st.sessions.map sessionInfoOf).mergeSort luDesc

/-- `GET /api/sessions/{session_id}` (`get_session`): raises a genuine 404
when the id is unknown (no surrounding try/except on this endpoint),
otherwise returns the stored fields; reads mutate nothing. -/
def get_session (sid : String) (st : St) :
    Except Err (String × String × Nat × Nat × List Message) :=
  match findSession st sid with
  | none => Except.error (404, "Session not found")
  | some s => Except.ok (sid, s.model, s.created_at, s.last_updated, s.messages)

/-- `DELETE /api/sessions/{session_id}` (`delete_session`): genuine 404
when the id is unknown, otherwise removes the entry from the dict. -/
def delete_session (sid : String) (st : St) : Except Err String × St :=
  match findSession st sid with
  | none => (Except.error (404, "Session not found"), st)
  | some _ =>
    (Except.ok ("Session deleted successfully"),
     { st with sessions := st.sessions.filter (fun p => !(decide (p.1 = sid))) })

/-- `POST /api/sessions` (`create_new_session`): validates the model against
the backend tag list (`none` models an unreachable backend, caught by
`except httpx.RequestError` as 503); an unknown model raises a 400 that the
`except` clause does not catch, so it surfaces as a genuine 400. -/
def create_new_session (model : String) (available : Option (List String)) (st : St) :
    Except Err (String × String × Nat) × St :=
  match available with
  | none => (Except.error (503, "Ollama server is not available"), st)
  | some models =>
    if model ∈ models then
      let (sid, st1) := create_session model st
      match findSession st1 sid with
      | some s => (Except.ok (sid, model, s.created_at), st1)
      | none => (Except.error (500, "unreachable"), st1)
    else
      (Except.error (400, "Model " ++ model ++ " not available"), st)

/-- One inbound operation against the service, for stating history-wide
invariants (the operations named by the spec: blocking turns, streaming
turns, list, get). -/
inductive Op where
  | chat (req : ChatRequest) (backend : String → List (String × String) → CompleteResult)
  | stream (req : ChatRequest) (backend : String → List (String × String) → List Line)
  | listS
  | getS (sid : String)

/-- State effect of one operation (list and get are pure reads). -/
def applyOp (op : Op) (st : St) : St :=
  match op with
  | Op.chat req backend => (chat_with_model req backend st).2
  | Op.stream req backend => (chat_stream req backend st).2
  | Op.listS => st
  | Op.getS _ => st

/-- State after a sequence of operations. -/
def applyOps : List Op → St → St
  | [], st => st
  | op :: rest, st => applyOps rest (applyOp op st)

/-- Relation between consecutive stored messages: an assistant message is
always written immediately after the user message of its own turn. -/
abbrev MsgStep (a b : Message) : Prop :=
  b.role = "assistant" → a.role = "user"

/-- Well-formed history: no assistant message opens the history, and every
assistant message is directly preceded by a user message. -/
def WfMsgs (l : List Message) : Prop :=
  (∀ m ∈ l.head?, m.role ≠ "assistant") ∧ List.Chain' MsgStep l

/-- Identifier bound: every stored key is shorter than the uuid counter
allows, so the next generated id is fresh. -/
def IdBound (st : St) : Prop :=
  ∀ p ∈ st.sessions, p.1.length ≤ st.nextId

/-- Store well-formedness carried across operations. -/
def StWF (st : St) : Prop :=
  IdBound st ∧ ∀ p ∈ st.sessions, WfMsgs p.2.messages

/-! ### Lemmas about the session dictionary -/

theorem lookupS_setSession_self (l : List (String × Session)) (k : String) (v : Session) :
    lookupS (setSession l k v) k = some v := by
  induction l with
  | nil => simp [setSession, lookupS]
  | cons p rest ih =>
    by_cases h : p.1 = k
    · simp [setSession, lookupS, h]
    · simpa [setSession, lookupS, h] using ih

theorem lookupS_setSession_ne (l : List (String × Session)) (k k' : String) (v : Session)
    (h : k' ≠ k) : lookupS (setSession l k v) k' = lookupS l k' := by
  induction l with
  | nil => simp [setSession, lookupS, Ne.symm h]
  | cons p rest ih =>
    by_cases hp : p.1 = k
    · subst hp
      simp [setSession, lookupS, Ne.symm h]
    · by_cases hp' : p.1 = k'
      · simp only [setSession, if_neg hp]
        simp [lookupS, hp']
      · simp [setSession, lookupS, hp, hp', ih]

theorem mem_setSession {l : List (String × Session)} {k : String} {v : Session}
    {p : String × Session} (h : p ∈ setSession l k v) : p = (k, v) ∨ p ∈ l := by
  induction l with
  | nil => simpa [setSession] using h
  | cons q rest ih =>
    by_cases hq : q.1 = k
    · simp only [setSession, if_pos hq, List.mem_cons] at h
      rcases h with h | h
      · exact Or.inl h
      · exact Or.inr (List.mem_cons_of_mem _ h)
    · simp only [setSession, if_neg hq, List.mem_cons] at h
      rcases h with h | h
      · exact Or.inr (by simp [h])
      · rcases ih h with h' | h'
        · exact Or.inl h'
        · exact Or.inr (List.mem_cons_of_mem _ h')

theorem setSession_setSession (l : List (String × Session)) (k : String) (v w : Session) :
    setSession (setSession l k v) k w = setSession l k w := by
  induction l with
  | nil => simp [setSession]
  | cons p rest ih =>
    by_cases h : p.1 = k
    · simp [setSession, h]
    · simp [setSession, h, ih]

theorem lookupS_mem {l : List (String × Session)} {k : String} {v : Session}
    (h : lookupS l k = some v) : (k, v) ∈ l := by
  induction l with
  | nil => simp [lookupS] at h
  | cons p rest ih =>
    by_cases hp : p.1 = k
    · rcases p with ⟨a, b⟩
      cases hp
      simp only [lookupS, if_pos rfl, Option.some.injEq] at h
      cases h
      exact List.mem_cons_self _ _
    · simp only [lookupS, if_neg hp] at h
      exact List.mem_cons_of_mem _ (ih h)

theorem lookupS_eq_none {l : List (String × Session)} {k : String}
    (h : ∀ p ∈ l, p.1 ≠ k) : lookupS l k = none := by
  induction l with
  | nil => simp [lookupS]
  | cons p rest ih =>
    have hp := h p (List.mem_cons_self _ _)
    simp only [lookupS, if_neg hp]
    exact ih (fun q hq => h q (List.mem_cons_of_mem _ hq))

theorem genId_length (n : Nat) : (genId n).length = n + 1 := by
  simp [genId, String.length]

/-- Under the identifier bound, the next generated id is not a stored key. -/
theorem genId_fresh {st : St} (h : IdBound st) :
    lookupS st.sessions (genId st.nextId) = none := by
  refine lookupS_eq_none (fun p hp hk => ?_)
  have hlen := h p hp
  rw [hk, genId_length] at hlen
  omega

/-! ### Characterization of the chat endpoints -/

/-- The user message appended at tick `t`. -/
def userMsg (content : String) (t : Nat) : Message :=
  { role := "user", content := content, timestamp := t }

/-- The assistant message appended at tick `t`. -/
def asstMsg (content : String) (t : Nat) : Message :=
  { role := "assistant", content := content, timestamp := t }

/-- The session after its user-message append at tick `t`. -/
def withUser (s : Session) (m : String) (t : Nat) : Session :=
  { s with messages := s.messages ++ [userMsg m t] }

/-- The session after a completed turn that started at tick `t`: user
message at `t`, assistant message at `t + 1`, `last_updated` at `t + 2`. -/
def withUA (s : Session) (m : String) (t : Nat) (c : String) : Session :=
  { s with messages := (s.messages ++ [userMsg m t]) ++ [asstMsg c (t + 1)],
           last_updated := t + 2 }

/-- The state right after the user-message append of a resolved turn. -/
def turnSt (st : St) (sid : String) (s : Session) (m : String) : St :=
  { st with sessions := setSession st.sessions sid (withUser s m st.clock),
            clock := st.clock + 1 }

/-- Explicit result of `chat_with_model` once the session `s` bound to
`sid` has been resolved and the model check passed, as a function of the
backend outcome. -/
def chatKnownResult (req : ChatRequest)
    (backend : String → List (String × String) → CompleteResult)
    (st : St) (sid : String) (s : Session) : Except Err ChatResponse × St :=
  match backend req.model (projectedMessages req.system_prompt sid (turnSt st sid s req.message)) with
  | CompleteResult.unreachable =>
    (Except.error (503, "Ollama server is not available"), turnSt st sid s req.message)
  | CompleteResult.httpError code body =>
    (Except.error (code, "Ollama error: " ++ body), turnSt st sid s req.message)
  | CompleteResult.malformed =>
    (Except.error (500, "Chat error: message"), turnSt st sid s req.message)
  | CompleteResult.success content =>
    (Except.ok { response := content, session_id := sid, model := req.model, timestamp := st.clock + 3 },
     { st with sessions := setSession st.sessions sid (withUA s req.message st.clock content),
               clock := st.clock + 4 })

/-- The session record built by `create_session` at the current state. -/
def freshSession (model : String) (st : St) : Session :=
  { model := model, messages := [], created_at := st.clock, last_updated := st.clock + 1 }

/-- The state right after `create_session(request.model)`. -/
def createdSt (model : String) (st : St) : St :=
  { st with sessions := setSession st.sessions (genId st.nextId) (freshSession model st),
            clock := st.clock + 2, nextId := st.nextId + 1 }

theorem chat_with_model_known (req : ChatRequest)
    (backend : String → List (String × String) → CompleteResult) (st : St) (sid : String)
    (s : Session) (h1 : req.session_id = some sid) (h2 : sid ≠ "")
    (h3 : findSession st sid = some s) (h4 : s.model = req.model) :
    chat_with_model req backend st = chatKnownResult req backend st sid s := by
  have htr : truthy (some sid) = true := by simp [truthy, h2]
  have h3' : lookupS st.sessions sid = some s := h3
  simp only [chat_with_model, chatKnownResult, turnSt, withUser, withUA, h1, htr, if_true,
    Option.getD, findSession, h3', now, userMsg, asstMsg]
  rw [if_pos h4]
  split <;> simp_all [setSession_setSession]

theorem chat_with_model_create (req : ChatRequest)
    (backend : String → List (String × String) → CompleteResult) (st : St)
    (h0 : truthy req.session_id = false) :
    chat_with_model req backend st =
      chatKnownResult req backend (createdSt req.model st) (genId st.nextId)
        (freshSession req.model st) := by
  simp only [chat_with_model, h0, Bool.false_eq_true, if_false, create_session, now,
    findSession, createdSt, freshSession]
  rw [lookupS_setSession_self]
  simp only [chatKnownResult, turnSt, withUser, withUA, userMsg, asstMsg, setSession_setSession,
    if_true, eq_self_iff_true, List.nil_append, Nat.add_assoc]

/-- Does a raw line decode to a record whose completion flag is true? -/
def isDoneLine : Line → Bool
  | Line.record _ d => d
  | _ => false

/-- Does the delivered line sequence contain a completion record at all? -/
def hasDone (lines : List Line) : Bool :=
  lines.any isDoneLine

/-- The text a single event contributes to the reply. -/
def chunkStr : Event → String
  | Event.chunk c _ => c
  | Event.done _ => ""

/-- Concatenation, in order, of the content fragments yielded to the caller. -/
def concatChunks (evs : List Event) : String :=
  evs.foldr (fun e acc => chunkStr e ++ acc) ("")

theorem str_append_empty (s : String) : s ++ "" = s := by
  cases s
  show String.mk _ = String.mk _
  simp [String.append]

theorem str_empty_append (s : String) : "" ++ s = s := by
  cases s
  rfl

theorem str_append_assoc (a b c : String) : a ++ b ++ c = a ++ (b ++ c) := by
  cases a; cases b; cases c
  show String.mk _ = String.mk _
  simp [String.append]

theorem concatChunks_append (l1 l2 : List Event) :
    concatChunks (l1 ++ l2) = concatChunks l1 ++ concatChunks l2 := by
  induction l1 with
  | nil => simp [concatChunks, str_empty_append]
  | cons e rest ih =>
    show chunkStr e ++ concatChunks (rest ++ l2) = chunkStr e ++ concatChunks rest ++ concatChunks l2
    rw [ih, str_append_assoc]

/-- An incomplete stream (no completion record decoded) commits nothing:
the state after the fold is exactly the state before it. -/
theorem runStream_noDone (sid : String) (full : String) (st : St) (lines : List Line)
    (h : hasDone lines = false) : (runStream sid full st lines).2 = st := by
  induction lines generalizing full with
  | nil => rfl
  | cons l rest ih =>
    cases l with
    | empty => exact ih full (by simpa [hasDone, isDoneLine] using h)
    | noise => exact ih full (by simpa [hasDone, isDoneLine] using h)
    | record c d =>
      cases d with
      | false =>
        have h' : hasDone rest = false := by simpa [hasDone, isDoneLine] using h
        cases c with
        | none => simpa [runStream] using ih full h'
        | some cc => simpa [runStream] using ih (full ++ cc) h'
      | true => simp [hasDone, isDoneLine] at h

/-- A stream that reaches a completion record commits exactly the
concatenation of the fragments yielded to the caller (appended to the
accumulator the fold started with). -/
theorem runStream_done (sid : String) (full : String) (st : St) (lines : List Line)
    (h : hasDone lines = true) :
    ∃ evs, runStream sid full st lines = (evs, commitAssistant sid (full ++ concatChunks evs) st) := by
  induction lines generalizing full with
  | nil => simp [hasDone] at h
  | cons l rest ih =>
    cases l with
    | empty =>
      have h' : hasDone rest = true := by simpa [hasDone, isDoneLine] using h
      simpa [runStream] using ih full h'
    | noise =>
      have h' : hasDone rest = true := by simpa [hasDone, isDoneLine] using h
      simpa [runStream] using ih full h'
    | record c d =>
      cases d with
      | true =>
        cases c with
        | none =>
          refine ⟨[Event.done sid], ?_⟩
          simp [runStream, concatChunks, chunkStr, str_append_empty]
        | some cc =>
          refine ⟨[Event.chunk cc sid, Event.done sid], ?_⟩
          simp [runStream, concatChunks, chunkStr, str_append_empty]
      | false =>
        have h' : hasDone rest = true := by simpa [hasDone, isDoneLine] using h
        cases c with
        | none =>
          obtain ⟨evs, heq⟩ := ih full h'
          exact ⟨evs, by simp [runStream, heq]⟩
        | some cc =>
          obtain ⟨evs, heq⟩ := ih (full ++ cc) h'
          refine ⟨Event.chunk cc sid :: evs, ?_⟩
          simp [runStream, heq, concatChunks, chunkStr, str_append_assoc]

/-- The fold never processes lines after the first completion record. -/
theorem runStream_firstDone (sid : String) (c : Option String) (post : List Line) :
    ∀ (pre : List Line) (full : String) (st : St), hasDone pre = false →
    runStream sid full st (pre ++ Line.record c true :: post) =
      runStream sid full st (pre ++ [Line.record c true]) := by
  intro pre
  induction pre with
  | nil =>
    intro full st _
    cases c <;> simp [runStream]
  | cons l rest ih =>
    intro full st h
    cases l with
    | empty => exact ih full st (by simpa [hasDone, isDoneLine] using h)
    | noise => exact ih full st (by simpa [hasDone, isDoneLine] using h)
    | record c' d =>
      cases d with
      | true => simp [hasDone, isDoneLine] at h
      | false =>
        have h' : hasDone rest = false := by simpa [hasDone, isDoneLine] using h
        cases c' with
        | none => simpa [runStream] using ih full st h'
        | some cc => simp [runStream, ih (full ++ cc) st h']

/-- The state effect of the stream fold is either nothing or one commit. -/
theorem runStream_state (sid : String) (full : String) (st : St) (lines : List Line) :
    (runStream sid full st lines).2 = st ∨
      ∃ f, (runStream sid full st lines).2 = commitAssistant sid f st := by
  cases hd : hasDone lines with
  | false => exact Or.inl (runStream_noDone sid full st lines hd)
  | true =>
    obtain ⟨evs, heq⟩ := runStream_done sid full st lines hd
    exact Or.inr ⟨full ++ concatChunks evs, by rw [heq]⟩

/-- Explicit result of `chat_stream` once the session `s` bound to `sid`
has been resolved (note: no model check on this path). -/
def streamKnownResult (req : ChatRequest)
    (backend : String → List (String × String) → List Line)
    (st : St) (sid : String) (s : Session) : Except Err (List Event) × St :=
  let r := runStream sid ("") (turnSt st sid s req.message)
    (backend req.model (projectedMessages req.system_prompt sid (turnSt st sid s req.message)))
  (Except.ok r.1, r.2)

theorem chat_stream_known (req : ChatRequest)
    (backend : String → List (String × String) → List Line) (st : St) (sid : String)
    (s : Session) (h1 : req.session_id = some sid) (h2 : sid ≠ "")
    (h3 : findSession st sid = some s) :
    chat_stream req backend st = streamKnownResult req backend st sid s := by
  have htr : truthy (some sid) = true := by simp [truthy, h2]
  have h3' : lookupS st.sessions sid = some s := h3
  simp only [chat_stream, streamKnownResult, turnSt, withUser, h1, htr, if_true, Option.getD,
    findSession, h3', now, userMsg]

theorem chat_stream_create (req : ChatRequest)
    (backend : String → List (String × String) → List Line) (st : St)
    (h0 : truthy req.session_id = false) :
    chat_stream req backend st =
      streamKnownResult req backend (createdSt req.model st) (genId st.nextId)
        (freshSession req.model st) := by
  simp only [chat_stream, h0, Bool.false_eq_true, if_false, create_session, now,
    findSession, createdSt, freshSession]
  rw [lookupS_setSession_self]
  simp only [streamKnownResult, turnSt, withUser, userMsg, setSession_setSession,
    List.nil_append, Nat.add_assoc]

/-! ### Error paths of the chat endpoints -/

theorem chat_with_model_unknown (req : ChatRequest)
    (backend : String → List (String × String) → CompleteResult) (st : St) (sid : String)
    (h1 : req.session_id = some sid) (h2 : sid ≠ "") (h3 : findSession st sid = none) :
    chat_with_model req backend st =
      (Except.error (500, "Chat error: 404: Session not found"), st) := by
  have htr : truthy (some sid) = true := by simp [truthy, h2]
  have h3' : lookupS st.sessions sid = none := h3
  simp only [chat_with_model, h1, htr, if_true, Option.getD, findSession, h3', wrapChat]
  rfl

theorem chat_with_model_mismatch (req : ChatRequest)
    (backend : String → List (String × String) → CompleteResult) (st : St) (sid : String)
    (s : Session) (h1 : req.session_id = some sid) (h2 : sid ≠ "")
    (h3 : findSession st sid = some s) (h4 : s.model ≠ req.model) :
    chat_with_model req backend st =
      (Except.error (500, "Chat error: 400: Model mismatch with session"), st) := by
  have htr : truthy (some sid) = true := by simp [truthy, h2]
  have h3' : lookupS st.sessions sid = some s := h3
  simp only [chat_with_model, h1, htr, if_true, Option.getD, findSession, h3', wrapChat]
  rw [if_neg h4]
  rfl

theorem chat_stream_unknown (req : ChatRequest)
    (backend : String → List (String × String) → List Line) (st : St) (sid : String)
    (h1 : req.session_id = some sid) (h2 : sid ≠ "") (h3 : findSession st sid = none) :
    chat_stream req backend st =
      (Except.error (500, "Streaming error: 404: Session not found"), st) := by
  have htr : truthy (some sid) = true := by simp [truthy, h2]
  have h3' : lookupS st.sessions sid = none := h3
  simp only [chat_stream, h1, htr, if_true, Option.getD, findSession, h3']

/-! ### Well-formed histories are preserved -/

theorem MsgStep_to_user (x : Message) (c : String) (t : Nat) : MsgStep x (userMsg c t) := by
  intro habs
  exact absurd habs (by simp [userMsg])

theorem wfMsgs_append_user {l : List Message} (h : WfMsgs l) (c : String) (t : Nat) :
    WfMsgs (l ++ [userMsg c t]) := by
  obtain ⟨hhead, hchain⟩ := h
  refine ⟨?_, ?_⟩
  · cases l with
    | nil =>
      intro m hm
      simp only [List.nil_append, List.head?_cons, Option.mem_def, Option.some.injEq] at hm
      rw [← hm]
      simp [userMsg]
    | cons a l' =>
      intro m hm
      simp only [List.cons_append, List.head?_cons, Option.mem_def, Option.some.injEq] at hm
      rw [← hm]
      exact hhead a (by simp)
  · rw [List.chain'_append]
    refine ⟨hchain, List.chain'_singleton _, fun x _ y hy => ?_⟩
    simp only [List.head?_cons, Option.mem_def, Option.some.injEq] at hy
    rw [← hy]
    exact MsgStep_to_user x c t

theorem wfMsgs_append_ua {l : List Message} (h : WfMsgs l) (c : String) (t : Nat)
    (d : String) (u : Nat) : WfMsgs ((l ++ [userMsg c t]) ++ [asstMsg d u]) := by
  obtain ⟨hhead, hchain⟩ := wfMsgs_append_user h c t
  refine ⟨?_, ?_⟩
  · cases l with
    | nil =>
      intro m hm
      simp only [List.nil_append, List.cons_append, List.head?_cons, Option.mem_def,
        Option.some.injEq] at hm
      rw [← hm]
      simp [userMsg]
    | cons a l' =>
      intro m hm
      simp only [List.cons_append, List.head?_cons, Option.mem_def, Option.some.injEq] at hm
      rw [← hm]
      exact hhead a (by simp)
  · rw [List.chain'_append]
    refine ⟨hchain, List.chain'_singleton _, fun x hx y hy => ?_⟩
    rw [List.getLast?_concat] at hx
    simp only [Option.mem_def, Option.some.injEq, List.head?_cons] at hx hy
    rw [← hx, ← hy]
    intro _
    rfl

theorem wfMsgs_nil : WfMsgs [] := by
  constructor
  · intro m hm
    simp at hm
  · exact List.chain'_nil

/-! ### Case analysis of a whole turn's state effect -/

/-- Did the endpoint produce a success response? -/
def isOkE {α : Type} : Except Err α → Bool
  | Except.ok _ => true
  | Except.error _ => false

theorem commitAssistant_found (sid : String) (f : String) (st : St) (s : Session)
    (h : findSession st sid = some s) :
    commitAssistant sid f st =
      { st with
          sessions := setSession st.sessions sid
            ({ s with messages := s.messages ++ [asstMsg f st.clock], last_updated := st.clock + 1 }),
          clock := st.clock + 2 } := by
  have h' : lookupS st.sessions sid = some s := h
  simp [commitAssistant, findSession, h', now, asstMsg, Nat.add_assoc]

/-- A resolved blocking turn either fails leaving only the user message
appended, or succeeds appending user then assistant and advancing
`last_updated`; the uuid counter is untouched either way. -/
theorem chatKnown_cases (req : ChatRequest)
    (cb : String → List (String × String) → CompleteResult) (st : St) (sid : String)
    (s : Session) :
    (∃ e, (chatKnownResult req cb st sid s).1 = Except.error e ∧
       (chatKnownResult req cb st sid s).2 = turnSt st sid s req.message) ∨
    (∃ c, (chatKnownResult req cb st sid s).1 =
        Except.ok { response := c, session_id := sid, model := req.model, timestamp := st.clock + 3 } ∧
       (chatKnownResult req cb st sid s).2 =
         { st with sessions := setSession st.sessions sid (withUA s req.message st.clock c),
                   clock := st.clock + 4 }) := by
  simp only [chatKnownResult]
  split
  · exact Or.inl ⟨_, rfl, rfl⟩
  · exact Or.inl ⟨_, rfl, rfl⟩
  · exact Or.inl ⟨_, rfl, rfl⟩
  · exact Or.inr ⟨_, rfl, rfl⟩

/-- A resolved streaming turn always returns the event list; its state
effect is either the user append alone (incomplete stream) or the user
append plus one assistant commit. -/
theorem streamKnown_state (req : ChatRequest)
    (sb : String → List (String × String) → List Line) (st : St) (sid : String) (s : Session) :
    (∃ evs, (streamKnownResult req sb st sid s).1 = Except.ok evs) ∧
    ((streamKnownResult req sb st sid s).2 = turnSt st sid s req.message ∨
     ∃ c, (streamKnownResult req sb st sid s).2 =
       { st with sessions := setSession st.sessions sid (withUA s req.message st.clock c),
                 clock := st.clock + 3 }) := by
  refine ⟨⟨_, rfl⟩, ?_⟩
  have hfound : findSession (turnSt st sid s req.message) sid = some (withUser s req.message st.clock) :=
    lookupS_setSession_self _ _ _
  have hstate := runStream_state sid ("") (turnSt st sid s req.message)
    (sb req.model (projectedMessages req.system_prompt sid (turnSt st sid s req.message)))
  rcases hstate with h | ⟨f, h⟩
  · exact Or.inl h
  · right
    refine ⟨f, ?_⟩
    rw [commitAssistant_found _ _ _ _ hfound] at h
    show (runStream sid ("") (turnSt st sid s req.message)
      (sb req.model (projectedMessages req.system_prompt sid (turnSt st sid s req.message)))).2 = _
    rw [h]
    simp [turnSt, withUser, withUA, setSession_setSession, userMsg, asstMsg, Nat.add_assoc]

/-! ### Invariant preservation across operation sequences -/

/-- Growth relation between stores: every live session survives with the
same bound model and at least as many messages. -/
def Ext (st st' : St) : Prop :=
  ∀ sid s, findSession st sid = some s →
    ∃ s', findSession st' sid = some s' ∧ s'.model = s.model ∧
      s.messages.length ≤ s'.messages.length

theorem Ext_refl (st : St) : Ext st st :=
  fun _ s h => ⟨s, h, rfl, Nat.le_refl _⟩

theorem Ext_trans {a b c : St} (h1 : Ext a b) (h2 : Ext b c) : Ext a c := by
  intro sid s h
  obtain ⟨s', hf, hm, hl⟩ := h1 sid s h
  obtain ⟨s'', hf', hm', hl'⟩ := h2 sid s' hf
  exact ⟨s'', hf', hm'.trans hm, hl.trans hl'⟩

theorem Ext_set_existing {st : St} (st' : St) (sid : String) (s sNew : Session)
    (h3 : findSession st sid = some s)
    (hsess : st'.sessions = setSession st.sessions sid sNew)
    (hm : sNew.model = s.model) (hl : s.messages.length ≤ sNew.messages.length) :
    Ext st st' := by
  intro sid₀ s₀ h₀
  by_cases he : sid₀ = sid
  · subst he
    rw [h₀, Option.some.injEq] at h3
    refine ⟨sNew, ?_, by rw [hm, ← h3], by rw [h3]; exact hl⟩
    show lookupS st'.sessions sid₀ = some sNew
    rw [hsess]
    exact lookupS_setSession_self _ _ _
  · refine ⟨s₀, ?_, rfl, Nat.le_refl _⟩
    show lookupS st'.sessions sid₀ = some s₀
    rw [hsess, lookupS_setSession_ne _ _ _ _ he]
    exact h₀

theorem Ext_set_fresh {st : St} (st' : St) (sid : String) (sNew : Session)
    (h3 : findSession st sid = none)
    (hsess : st'.sessions = setSession st.sessions sid sNew) :
    Ext st st' := by
  intro sid₀ s₀ h₀
  have hne : sid₀ ≠ sid := by
    intro he
    subst he
    rw [h₀] at h3
    cases h3
  refine ⟨s₀, ?_, rfl, Nat.le_refl _⟩
  show lookupS st'.sessions sid₀ = some s₀
  rw [hsess, lookupS_setSession_ne _ _ _ _ hne]
  exact h₀

theorem StWF_set {st : St} (st' : St) (sid : String) (sNew : Session) (hwf : StWF st)
    (hsess : st'.sessions = setSession st.sessions sid sNew)
    (hn : st.nextId ≤ st'.nextId) (hlen : sid.length ≤ st'.nextId)
    (hwfNew : WfMsgs sNew.messages) : StWF st' := by
  constructor
  · intro p hp
    rw [hsess] at hp
    rcases mem_setSession hp with rfl | hp'
    · exact hlen
    · exact (hwf.1 p hp').trans hn
  · intro p hp
    rw [hsess] at hp
    rcases mem_setSession hp with rfl | hp'
    · exact hwfNew
    · exact hwf.2 p hp'

theorem wfMsgs_withUser {s : Session} (h : WfMsgs s.messages) (m : String) (t : Nat) :
    WfMsgs (withUser s m t).messages :=
  wfMsgs_append_user h m t

theorem wfMsgs_withUA {s : Session} (h : WfMsgs s.messages) (m : String) (t : Nat) (c : String) :
    WfMsgs (withUA s m t c).messages :=
  wfMsgs_append_ua h m t c (t + 1)

theorem step_chat (req : ChatRequest)
    (cb : String → List (String × String) → CompleteResult) (st : St) (hwf : StWF st) :
    StWF ((chat_with_model req cb st).2) ∧ Ext st ((chat_with_model req cb st).2) := by
  cases htr : truthy req.session_id with
  | false =>
    rw [chat_with_model_create req cb st htr]
    have hfresh : findSession st (genId st.nextId) = none := genId_fresh hwf.1
    have hwffresh : WfMsgs (freshSession req.model st).messages := wfMsgs_nil
    rcases chatKnown_cases req cb (createdSt req.model st) (genId st.nextId)
        (freshSession req.model st) with ⟨e, _, h2⟩ | ⟨c, _, h2⟩
    · rw [h2]
      have hsess : (turnSt (createdSt req.model st) (genId st.nextId) (freshSession req.model st)
            req.message).sessions =
          setSession st.sessions (genId st.nextId)
            (withUser (freshSession req.model st) req.message (createdSt req.model st).clock) := by
        simp [turnSt, createdSt, setSession_setSession]
      refine ⟨StWF_set _ _ _ hwf hsess (Nat.le_succ _) (by rw [genId_length]; rfl)
        (wfMsgs_withUser hwffresh _ _), Ext_set_fresh _ _ _ hfresh hsess⟩
    · rw [h2]
      have hsess : ({ createdSt req.model st with
            sessions := setSession (createdSt req.model st).sessions (genId st.nextId)
              (withUA (freshSession req.model st) req.message (createdSt req.model st).clock c),
            clock := (createdSt req.model st).clock + 4 } : St).sessions =
          setSession st.sessions (genId st.nextId)
            (withUA (freshSession req.model st) req.message (createdSt req.model st).clock c) := by
        simp [createdSt, setSession_setSession]
      refine ⟨StWF_set _ _ _ hwf hsess (Nat.le_succ _) (by rw [genId_length]; rfl)
        (wfMsgs_withUA hwffresh _ _ _), Ext_set_fresh _ _ _ hfresh hsess⟩
  | true =>
    obtain ⟨sid, hsid, hne⟩ : ∃ sid, req.session_id = some sid ∧ sid ≠ "" := by
      cases hq : req.session_id with
      | none => rw [hq] at htr; simp [truthy] at htr
      | some v =>
        refine ⟨v, rfl, ?_⟩
        intro hv
        rw [hq, hv] at htr
        simp [truthy] at htr
    cases hfind : findSession st sid with
    | none =>
      rw [chat_with_model_unknown req cb st sid hsid hne hfind]
      exact ⟨hwf, Ext_refl st⟩
    | some s =>
      by_cases hm : s.model = req.model
      · rw [chat_with_model_known req cb st sid s hsid hne hfind hm]
        have hmem := lookupS_mem hfind
        have hwfs : WfMsgs s.messages := hwf.2 _ hmem
        have hsidlen : sid.length ≤ st.nextId := hwf.1 _ hmem
        rcases chatKnown_cases req cb st sid s with ⟨e, _, h2⟩ | ⟨c, _, h2⟩
        · rw [h2]
          refine ⟨StWF_set _ _ _ hwf rfl (Nat.le_refl _) hsidlen (wfMsgs_withUser hwfs _ _),
            Ext_set_existing _ _ _ _ hfind rfl rfl ?_⟩
          simp [withUser]
        · rw [h2]
          refine ⟨StWF_set _ _ _ hwf rfl (Nat.le_refl _) hsidlen (wfMsgs_withUA hwfs _ _ _),
            Ext_set_existing _ _ _ _ hfind rfl rfl ?_⟩
          simp [withUA]
      · rw [chat_with_model_mismatch req cb st sid s hsid hne hfind hm]
        exact ⟨hwf, Ext_refl st⟩

theorem step_stream (req : ChatRequest)
    (sb : String → List (String × String) → List Line) (st : St) (hwf : StWF st) :
    StWF ((chat_stream req sb st).2) ∧ Ext st ((chat_stream req sb st).2) := by
  cases htr : truthy req.session_id with
  | false =>
    rw [chat_stream_create req sb st htr]
    have hfresh : findSession st (genId st.nextId) = none := genId_fresh hwf.1
    have hwffresh : WfMsgs (freshSession req.model st).messages := wfMsgs_nil
    rcases (streamKnown_state req sb (createdSt req.model st) (genId st.nextId)
        (freshSession req.model st)).2 with h2 | ⟨c, h2⟩
    · rw [h2]
      have hsess : (turnSt (createdSt req.model st) (genId st.nextId) (freshSession req.model st)
            req.message).sessions =
          setSession st.sessions (genId st.nextId)
            (withUser (freshSession req.model st) req.message (createdSt req.model st).clock) := by
        simp [turnSt, createdSt, setSession_setSession]
      refine ⟨StWF_set _ _ _ hwf hsess (Nat.le_succ _) (by rw [genId_length]; rfl)
        (wfMsgs_withUser hwffresh _ _), Ext_set_fresh _ _ _ hfresh hsess⟩
    · rw [h2]
      have hsess : ({ createdSt req.model st with
            sessions := setSession (createdSt req.model st).sessions (genId st.nextId)
              (withUA (freshSession req.model st) req.message (createdSt req.model st).clock c),
            clock := (createdSt req.model st).clock + 3 } : St).sessions =
          setSession st.sessions (genId st.nextId)
            (withUA (freshSession req.model st) req.message (createdSt req.model st).clock c) := by
        simp [createdSt, setSession_setSession]
      refine ⟨StWF_set _ _ _ hwf hsess (Nat.le_succ _) (by rw [genId_length]; rfl)
        (wfMsgs_withUA hwffresh _ _ _), Ext_set_fresh _ _ _ hfresh hsess⟩
  | true =>
    obtain ⟨sid, hsid, hne⟩ : ∃ sid, req.session_id = some sid ∧ sid ≠ "" := by
      cases hq : req.session_id with
      | none => rw [hq] at htr; simp [truthy] at htr
      | some v =>
        refine ⟨v, rfl, ?_⟩
        intro hv
        rw [hq, hv] at htr
        simp [truthy] at htr
    cases hfind : findSession st sid with
    | none =>
      rw [chat_stream_unknown req sb st sid hsid hne hfind]
      exact ⟨hwf, Ext_refl st⟩
    | some s =>
      rw [chat_stream_known req sb st sid s hsid hne hfind]
      have hmem := lookupS_mem hfind
      have hwfs : WfMsgs s.messages := hwf.2 _ hmem
      have hsidlen : sid.length ≤ st.nextId := hwf.1 _ hmem
      rcases (streamKnown_state req sb st sid s).2 with h2 | ⟨c, h2⟩
      · rw [h2]
        refine ⟨StWF_set _ _ _ hwf rfl (Nat.le_refl _) hsidlen (wfMsgs_withUser hwfs _ _),
          Ext_set_existing _ _ _ _ hfind rfl rfl ?_⟩
        simp [withUser]
      · rw [h2]
        refine ⟨StWF_set _ _ _ hwf rfl (Nat.le_refl _) hsidlen (wfMsgs_withUA hwfs _ _ _),
          Ext_set_existing _ _ _ _ hfind rfl rfl ?_⟩
        simp [withUA]

theorem step_op (op : Op) (st : St) (hwf : StWF st) :
    StWF (applyOp op st) ∧ Ext st (applyOp op st) := by
  cases op with
  | chat req cb => exact step_chat req cb st hwf
  | stream req sb => exact step_stream req sb st hwf
  | listS => exact ⟨hwf, Ext_refl st⟩
  | getS _ => exact ⟨hwf, Ext_refl st⟩

theorem applyOps_inv (ops : List Op) (st : St) (hwf : StWF st) :
    StWF (applyOps ops st) ∧ Ext st (applyOps ops st) := by
  induction ops generalizing st with
  | nil => exact ⟨hwf, Ext_refl st⟩
  | cons op rest ih =>
    obtain ⟨hwf', hext⟩ := step_op op st hwf
    obtain ⟨hwf'', hext'⟩ := ih (applyOp op st) hwf'
    exact ⟨hwf'', Ext_trans hext hext'⟩

/-! ### Concrete fixtures used in closed evaluations and witnesses -/

/-- The empty store at tick 0. -/
def st0 : St :=
  { sessions := [], clock := 0, nextId := 0 }

/-- An empty session bound to model `"m1"`. -/
def sessA : Session :=
  { model := "m1", messages := [], created_at := 0, last_updated := 0 }

/-- A store holding one empty session `"s"` bound to model `"m1"`. -/
def stA : St :=
  { sessions := [(("s"), sessA)], clock := 5, nextId := 1 }

/-! ### The claims -/

/-- Claim C1: the claim asserts that every inbound chat turn — blocking or
streaming — with a model differing from the session's bound model fails
with ModelMismatch leaving the session untouched. The code's streaming
endpoint performs no model check at all: a streaming request with model
`m2` against session `s` bound to `m1` succeeds, appends the user message
and commits the assistant reply into the mismatched session. The blocking
endpoint does reject the mismatch (though re-wrapped to a 500 by its
generic handler) and leaves the store untouched. -/
theorem claim_C1_stream_no_model_check :
    (chat_stream { message := "x", model := "m2", session_id := some ("s") }
        (fun _ _ => [Line.record (some ("ok")) true]) stA).1 =
      Except.ok [Event.chunk ("ok") ("s"), Event.done ("s")] ∧
    findSession (chat_stream { message := "x", model := "m2", session_id := some ("s") }
        (fun _ _ => [Line.record (some ("ok")) true]) stA).2 ("s") =
      some { model := "m1", messages := [userMsg ("x") 5, asstMsg ("ok") 6],
             created_at := 0, last_updated := 7 } ∧
    chat_with_model { message := "x", model := "m2", session_id := some ("s") }
        (fun _ _ => CompleteResult.success ("ok")) stA =
      (Except.error (500, "Chat error: 400: Model mismatch with session"), stA) := by
  exact ⟨rfl, rfl, rfl⟩

/-- Claim C3: the claim maps unknown session to 404-class, unreachable
backend to 503, backend failure to its own status, mismatch or unavailable
model to 400-class. The session read/delete endpoints and the model
validation behave as claimed, but on the chat endpoints the raised 404/400
`HTTPException` is caught by the trailing generic `except Exception` and
resurfaces as a 500, contradicting the claim. -/
theorem claim_C3_status_codes :
    chat_with_model { message := "hi", model := "m1", session_id := some ("nope") }
        (fun _ _ => CompleteResult.success ("ok")) st0 =
      (Except.error (500, "Chat error: 404: Session not found"), st0) ∧
    chat_stream { message := "hi", model := "m1", session_id := some ("nope") }
        (fun _ _ => ([] : List Line)) st0 =
      (Except.error (500, "Streaming error: 404: Session not found"), st0) ∧
    get_session ("nope") st0 = Except.error (404, "Session not found") ∧
    delete_session ("nope") st0 = (Except.error (404, "Session not found"), st0) ∧
    get_session ("s") (delete_session ("s") stA).2 = Except.error (404, "Session not found") ∧
    (chat_with_model { message := "hi", model := "m1", session_id := some ("s") }
        (fun _ _ => CompleteResult.unreachable) stA).1 =
      Except.error (503, "Ollama server is not available") ∧
    (chat_with_model { message := "hi", model := "m1", session_id := some ("s") }
        (fun _ _ => CompleteResult.httpError 502 ("bad gateway")) stA).1 =
      Except.error (502, "Ollama error: bad gateway") ∧
    (create_new_session ("m9") (some [("m1")]) st0).1 =
      Except.error (400, "Model m9 not available") ∧
    (create_new_session ("m1") none st0).1 =
      Except.error (503, "Ollama server is not available") := by
  exact ⟨rfl, rfl, rfl, rfl, rfl, rfl, rfl, rfl, rfl⟩

/-- Claim C10: a chat or streaming request whose `session_id` is the empty
string is treated exactly like one carrying no session id — Python's
`request.session_id or create_session(...)` treats `""` as falsy — so a
fresh session bound to the requested model is created instead of the
request failing with SessionNotFound. -/
theorem claim_C10_empty_session_id (req : ChatRequest)
    (cb : String → List (String × String) → CompleteResult)
    (sb : String → List (String × String) → List Line) (st : St)
    (h : req.session_id = some ("")) :
    chat_with_model req cb st = chat_with_model { req with session_id := none } cb st ∧
    chat_stream req sb st = chat_stream { req with session_id := none } sb st ∧
    ∃ s', findSession (chat_with_model req cb st).2 (genId st.nextId) = some s' ∧
      s'.model = req.model := by
  have h0 : truthy req.session_id = false := by rw [h]; rfl
  have h0' : truthy ({ req with session_id := none } : ChatRequest).session_id = false := rfl
  refine ⟨?_, ?_, ?_⟩
  · rw [chat_with_model_create req cb st h0, chat_with_model_create _ cb st h0']
    rfl
  · rw [chat_stream_create req sb st h0, chat_stream_create _ sb st h0']
    rfl
  · rw [chat_with_model_create req cb st h0]
    rcases chatKnown_cases req cb (createdSt req.model st) (genId st.nextId)
        (freshSession req.model st) with ⟨e, _, h2⟩ | ⟨c, _, h2⟩
    · rw [h2]
      exact ⟨_, lookupS_setSession_self _ _ _, rfl⟩
    · rw [h2]
      exact ⟨_, lookupS_setSession_self _ _ _, rfl⟩

/-- Witness for C10 at a concrete request, store and backend doubles. -/
theorem claim_C10_witness :
    chat_with_model { message := "hi", model := "m1", session_id := some (""), system_prompt := none }
        (fun _ _ => CompleteResult.success ("ok")) st0 =
      chat_with_model { message := "hi", model := "m1", session_id := none, system_prompt := none }
        (fun _ _ => CompleteResult.success ("ok")) st0 ∧
    chat_stream { message := "hi", model := "m1", session_id := some (""), system_prompt := none }
        (fun _ _ => ([] : List Line)) st0 =
      chat_stream { message := "hi", model := "m1", session_id := none, system_prompt := none }
        (fun _ _ => ([] : List Line)) st0 ∧
    ∃ s', findSession (chat_with_model
        { message := "hi", model := "m1", session_id := some (""), system_prompt := none }
        (fun _ _ => CompleteResult.success ("ok")) st0).2 (genId 0) = some s' ∧
      s'.model = "m1" :=
  claim_C10_empty_session_id _ _ _ _ rfl

/-- Claim C8: a blocking chat request with no session id against a backend
returning content `c` yields a success response carrying `c`, the freshly
generated session id and the requested model; the new session then holds
exactly two messages, the user message followed by the assistant message
with content `c`. -/
theorem claim_C8_first_turn (req : ChatRequest)
    (cb : String → List (String × String) → CompleteResult) (st : St) (c : String)
    (h0 : req.session_id = none)
    (hb : ∀ m, cb req.model m = CompleteResult.success c) :
    (chat_with_model req cb st).1 =
      Except.ok { response := c, session_id := genId st.nextId, model := req.model,
                  timestamp := st.clock + 5 } ∧
    findSession (chat_with_model req cb st).2 (genId st.nextId) =
      some { model := req.model,
             messages := [userMsg req.message (st.clock + 2), asstMsg c (st.clock + 3)],
             created_at := st.clock, last_updated := st.clock + 4 } := by
  have h0' : truthy req.session_id = false := by rw [h0]; rfl
  rw [chat_with_model_create req cb st h0']
  constructor
  · simp only [chatKnownResult, hb]
    simp [createdSt, Nat.add_assoc]
  · simp only [chatKnownResult, hb, findSession]
    rw [lookupS_setSession_self]
    simp [withUA, freshSession, createdSt, userMsg, asstMsg, Nat.add_assoc]

/-- Witness for C8: the concrete Scenario B run. -/
theorem claim_C8_witness :
    (chat_with_model { message := "hi", model := "m1", session_id := none, system_prompt := none }
        (fun _ _ => CompleteResult.success ("hello")) st0).1 =
      Except.ok { response := "hello", session_id := genId 0, model := "m1", timestamp := 5 } ∧
    findSession (chat_with_model
        { message := "hi", model := "m1", session_id := none, system_prompt := none }
        (fun _ _ => CompleteResult.success ("hello")) st0).2 (genId 0) =
      some { model := "m1", messages := [userMsg ("hi") 2, asstMsg ("hello") 3],
             created_at := 0, last_updated := 4 } :=
  claim_C8_first_turn _ _ st0 ("hello") rfl (fun _ => rfl)

/-- Claim C5: the projection sent to the backend is exactly the stored
messages mapped in order to (role, content) pairs (timestamps dropped),
with a synthetic system entry prepended iff the prompt is supplied and
non-empty; and a turn only ever appends user/assistant messages to the
store, so the synthetic entry is never persisted. -/
theorem claim_C5_projection :
    (∀ sys sid st s, findSession st sid = some s →
       projectedMessages sys sid st =
         (if truthy sys then [(("system"), sys.getD (""))] else []) ++
           s.messages.map (fun m => (m.role, m.content))) ∧
    (∀ sys, truthy sys = true ↔ ∃ p, sys = some p ∧ p ≠ "") ∧
    (∀ req cb st sid s, req.session_id = some sid → sid ≠ "" →
       findSession st sid = some s → s.model = req.model →
       ∃ s', findSession (chat_with_model req cb st).2 sid = some s' ∧
         (s'.messages = s.messages ++ [userMsg req.message st.clock] ∨
          ∃ c, s'.messages =
            (s.messages ++ [userMsg req.message st.clock]) ++ [asstMsg c (st.clock + 1)])) := by
  refine ⟨?_, ?_, ?_⟩
  · intro sys sid st s h
    have h' : lookupS st.sessions sid = some s := h
    cases htr : truthy sys with
    | false => simp [projectedMessages, get_session_messages, findSession, h', htr]
    | true => simp [projectedMessages, get_session_messages, findSession, h', htr]
  · intro sys
    cases sys with
    | none => simp [truthy]
    | some v => simp [truthy]
  · intro req cb st sid s h1 h2 h3 h4
    rw [chat_with_model_known req cb st sid s h1 h2 h3 h4]
    rcases chatKnown_cases req cb st sid s with ⟨e, _, h2'⟩ | ⟨c, _, h2'⟩
    · rw [h2']
      exact ⟨_, lookupS_setSession_self _ _ _, Or.inl rfl⟩
    · rw [h2']
      exact ⟨_, lookupS_setSession_self _ _ _, Or.inr ⟨c, rfl⟩⟩

/-- Witness for C5 at a concrete session, prompt and turn. -/
theorem claim_C5_witness :
    projectedMessages (some ("be brief")) ("s") stA =
      (if truthy (some ("be brief")) then [(("system"), (some ("be brief")).getD (""))] else []) ++
        sessA.messages.map (fun m => (m.role, m.content)) ∧
    (truthy (some ("be brief")) = true ↔ ∃ p, some ("be brief") = some p ∧ p ≠ "") ∧
    ∃ s', findSession (chat_with_model { message := "q", model := "m1", session_id := some ("s") }
        (fun _ _ => CompleteResult.success ("a")) stA).2 ("s") = some s' ∧
      (s'.messages = sessA.messages ++ [userMsg ("q") 5] ∨
       ∃ c, s'.messages = (sessA.messages ++ [userMsg ("q") 5]) ++ [asstMsg c 6]) :=
  ⟨claim_C5_projection.1 (some ("be brief")) ("s") stA sessA (by decide),
   claim_C5_projection.2.1 (some ("be brief")),
   claim_C5_projection.2.2 { message := "q", model := "m1", session_id := some ("s") }
     (fun _ _ => CompleteResult.success ("a")) stA ("s") sessA rfl (by decide) (by decide) rfl⟩

/-- Claim C6: with the session resolved and the model matching, a turn
leaves the session's model and creation time unchanged; a failed turn has
appended exactly the user message and left `updatedAt` unchanged; a
successful turn has appended user then assistant and strictly advanced
`updatedAt`. -/
theorem claim_C6_updatedAt (req : ChatRequest)
    (cb : String → List (String × String) → CompleteResult) (st : St) (sid : String)
    (s : Session) (h1 : req.session_id = some sid) (h2 : sid ≠ "")
    (h3 : findSession st sid = some s) (h4 : s.model = req.model)
    (h5 : s.last_updated ≤ st.clock) :
    ∃ s', findSession (chat_with_model req cb st).2 sid = some s' ∧
      s'.model = s.model ∧ s'.created_at = s.created_at ∧
      (isOkE (chat_with_model req cb st).1 = false →
        s'.messages = s.messages ++ [userMsg req.message st.clock] ∧
        s'.last_updated = s.last_updated) ∧
      (isOkE (chat_with_model req cb st).1 = true →
        (∃ c, s'.messages =
          (s.messages ++ [userMsg req.message st.clock]) ++ [asstMsg c (st.clock + 1)]) ∧
        s.last_updated < s'.last_updated) := by
  rw [chat_with_model_known req cb st sid s h1 h2 h3 h4]
  rcases chatKnown_cases req cb st sid s with ⟨e, hr, h2'⟩ | ⟨c, hr, h2'⟩
  · rw [hr, h2']
    refine ⟨withUser s req.message st.clock, lookupS_setSession_self _ _ _, rfl, rfl, ?_, ?_⟩
    · intro _
      exact ⟨rfl, rfl⟩
    · intro habs
      simp [isOkE] at habs
  · rw [hr, h2']
    refine ⟨withUA s req.message st.clock c, lookupS_setSession_self _ _ _, rfl, rfl, ?_, ?_⟩
    · intro habs
      simp [isOkE] at habs
    · intro _
      refine ⟨⟨c, rfl⟩, ?_⟩
      show s.last_updated < st.clock + 2
      omega

/-- Witness for C6: one failing and the shape-fixing hypotheses at a
concrete successful turn. -/
theorem claim_C6_witness :
    ∃ s', findSession (chat_with_model { message := "q", model := "m1", session_id := some ("s") }
        (fun _ _ => CompleteResult.success ("a")) stA).2 ("s") = some s' ∧
      s'.model = "m1" ∧ s'.created_at = 0 ∧
      (isOkE (chat_with_model { message := "q", model := "m1", session_id := some ("s") }
          (fun _ _ => CompleteResult.success ("a")) stA).1 = false →
        s'.messages = sessA.messages ++ [userMsg ("q") 5] ∧ s'.last_updated = sessA.last_updated) ∧
      (isOkE (chat_with_model { message := "q", model := "m1", session_id := some ("s") }
          (fun _ _ => CompleteResult.success ("a")) stA).1 = true →
        (∃ c, s'.messages = (sessA.messages ++ [userMsg ("q") 5]) ++ [asstMsg c 6]) ∧
        sessA.last_updated < s'.last_updated) :=
  claim_C6_updatedAt { message := "q", model := "m1", session_id := some ("s") }
    (fun _ _ => CompleteResult.success ("a")) stA ("s") sessA rfl (by decide) (by decide) rfl
    (by decide)

/-- Claim C2: a streaming turn whose line sequence ends — by exhaustion or
connection failure — before any record with the completion flag commits no
assistant message: the session afterwards is exactly the user-append state,
so its message count is the pre-turn count plus one and `updatedAt` is not
advanced. -/
theorem claim_C2_incomplete_stream (req : ChatRequest)
    (sb : String → List (String × String) → List Line) (st : St) (sid : String) (s : Session)
    (h1 : req.session_id = some sid) (h2 : sid ≠ "") (h3 : findSession st sid = some s)
    (hnd : ∀ m, hasDone (sb req.model m) = false) :
    ∃ evs, (chat_stream req sb st).1 = Except.ok evs ∧
      findSession (chat_stream req sb st).2 sid = some (withUser s req.message st.clock) ∧
      (withUser s req.message st.clock).messages.length = s.messages.length + 1 ∧
      (withUser s req.message st.clock).last_updated = s.last_updated := by
  rw [chat_stream_known req sb st sid s h1 h2 h3]
  refine ⟨_, rfl, ?_, by simp [withUser, userMsg], rfl⟩
  have hr := runStream_noDone sid ("") (turnSt st sid s req.message)
    (sb req.model (projectedMessages req.system_prompt sid (turnSt st sid s req.message)))
    (hnd _)
  simp only [streamKnownResult]
  rw [hr]
  exact lookupS_setSession_self _ _ _

/-- Witness for C2: a stream delivering one fragment and noise but no
completion record against the concrete store. -/
theorem claim_C2_witness :
    ∃ evs, (chat_stream { message := "q", model := "m1", session_id := some ("s") }
        (fun _ _ => [Line.record (some ("fr")) false, Line.noise]) stA).1 = Except.ok evs ∧
      findSession (chat_stream { message := "q", model := "m1", session_id := some ("s") }
          (fun _ _ => [Line.record (some ("fr")) false, Line.noise]) stA).2 ("s") =
        some (withUser sessA ("q") 5) ∧
      (withUser sessA ("q") 5).messages.length = sessA.messages.length + 1 ∧
      (withUser sessA ("q") 5).last_updated = sessA.last_updated :=
  claim_C2_incomplete_stream { message := "q", model := "m1", session_id := some ("s") }
    (fun _ _ => [Line.record (some ("fr")) false, Line.noise]) stA ("s") sessA rfl (by decide)
    (by decide) (fun _ => rfl)

/-- Claim C4: a line that fails to decode is skipped and the stream
continues; the fold stops at the first record whose completion flag is
true, ignoring anything after it; and when completion is reached, the
assistant message committed into the session carries exactly the
concatenation, in arrival order, of the content fragments yielded. -/
theorem claim_C4_stream_decode :
    (∀ sid full st rest, runStream sid full st (Line.noise :: rest) = runStream sid full st rest) ∧
    (∀ sid c post pre full st, hasDone pre = false →
       runStream sid full st (pre ++ Line.record c true :: post) =
         runStream sid full st (pre ++ [Line.record c true])) ∧
    (∀ sid st lines s, hasDone lines = true → findSession st sid = some s →
       ∃ evs, runStream sid ("") st lines = (evs, commitAssistant sid (concatChunks evs) st) ∧
         findSession (runStream sid ("") st lines).2 sid =
           some ({ s with messages := s.messages ++ [asstMsg (concatChunks evs) st.clock],
                          last_updated := st.clock + 1 })) := by
  refine ⟨fun _ _ _ _ => rfl, ?_, ?_⟩
  · intro sid c post pre full st h
    exact runStream_firstDone sid c post pre full st h
  · intro sid st lines s hd hf
    obtain ⟨evs, heq⟩ := runStream_done sid ("") st lines hd
    rw [str_empty_append] at heq
    refine ⟨evs, heq, ?_⟩
    rw [heq]
    show findSession (commitAssistant sid (concatChunks evs) st) sid = _
    rw [commitAssistant_found _ _ _ _ hf]
    exact lookupS_setSession_self _ _ _

/-- Witness for C4: fragments `"fr"`, noise, then a completing record
carrying `"ag"`, committed as `"frag"` against the concrete store. -/
theorem claim_C4_witness :
    runStream ("s") ("x") stA
        ([Line.record (some ("a")) false] ++ Line.record (some ("b")) true :: [Line.noise]) =
      runStream ("s") ("x") stA ([Line.record (some ("a")) false] ++ [Line.record (some ("b")) true]) ∧
    ∃ evs, runStream ("s") ("") stA [Line.record (some ("fr")) false, Line.noise,
          Line.record (some ("ag")) true] =
        (evs, commitAssistant ("s") (concatChunks evs) stA) ∧
      findSession (runStream ("s") ("") stA [Line.record (some ("fr")) false, Line.noise,
          Line.record (some ("ag")) true]).2 ("s") =
        some ({ sessA with messages := sessA.messages ++ [asstMsg (concatChunks evs) 5],
                           last_updated := 6 }) :=
  ⟨claim_C4_stream_decode.2.1 ("s") (some ("b")) [Line.noise] [Line.record (some ("a")) false]
      ("x") stA (by decide),
   claim_C4_stream_decode.2.2 ("s") stA
     [Line.record (some ("fr")) false, Line.noise, Line.record (some ("ag")) true] sessA
     (by decide) (by decide)⟩

/-- Claim C7: `list_sessions` output is sorted by `last_updated`
descending — any element at an earlier position has a `last_updated` at
least that of any later one, so a strictly more recently updated session
always appears first — and read operations change nothing, so repeated
calls with no intervening writes return the same sequence. -/
theorem claim_C7_listing_order (st : St) (i j : Nat) (hij : i < j)
    (hj : j < (list_sessions st).length) :
    ((list_sessions st).get ⟨j, hj⟩).last_updated ≤
      ((list_sessions st).get ⟨i, Nat.lt_trans hij hj⟩).last_updated ∧
    (∀ sid, list_sessions (applyOp (Op.getS sid) st) = list_sessions st) ∧
    list_sessions (applyOp Op.listS st) = list_sessions st := by
  refine ⟨?_, fun _ => rfl, rfl⟩
  have htrans : ∀ a b c : SessionInfo, luDesc a b → luDesc b c → luDesc a c := by
    intro a b c hab hbc
    simp only [luDesc, decide_eq_true_eq] at *
    omega
  have htotal : ∀ a b : SessionInfo, luDesc a b || luDesc b a := by
    intro a b
    simp only [luDesc, Bool.or_eq_true, decide_eq_true_eq]
    omega
  have hs := List.sorted_mergeSort htrans htotal (st.sessions.map sessionInfoOf)
  have hp := (List.pairwise_iff_get.mp hs) ⟨i, Nat.lt_trans hij hj⟩ ⟨j, hj⟩ hij
  simpa [luDesc] using hp

/-- A second session bound to `"m2"`, more recently updated than `sessA`. -/
def sessB : Session :=
  { model := "m2", messages := [], created_at := 1, last_updated := 9 }

/-- A two-session store for the listing witness. -/
def stB : St :=
  { sessions := [(("s"), sessA), (("t"), sessB)], clock := 10, nextId := 2 }

/-- Witness for C7 on a two-session store. -/
theorem claim_C7_witness :
    ((list_sessions stB).get ⟨1, by simp [list_sessions, stB]⟩).last_updated ≤
      ((list_sessions stB).get ⟨0, by simp [list_sessions, stB]⟩).last_updated ∧
    (∀ sid, list_sessions (applyOp (Op.getS sid) stB) = list_sessions stB) ∧
    list_sessions (applyOp Op.listS stB) = list_sessions stB :=
  claim_C7_listing_order stB 0 1 (by decide) (by simp [list_sessions, stB])

/-- Claim C9: across any sequence of chat turns, streaming turns, list and
get operations on a well-formed store, a live session keeps its bound
model, its message count never decreases, and its history stays
well-formed: no assistant message without the user message of its own turn
immediately before it. -/
theorem claim_C9_invariants (ops : List Op) (st : St) (hwf : StWF st) (sid : String)
    (s : Session) (h : findSession st sid = some s) :
    ∃ s', findSession (applyOps ops st) sid = some s' ∧ s'.model = s.model ∧
      s.messages.length ≤ s'.messages.length ∧ WfMsgs s'.messages := by
  obtain ⟨hwf', hext⟩ := applyOps_inv ops st hwf
  obtain ⟨s', hf, hm, hl⟩ := hext sid s h
  exact ⟨s', hf, hm, hl, hwf'.2 _ (lookupS_mem hf)⟩

/-- Witness for C9: a blocking turn, a streaming turn and a read against
the concrete store. -/
theorem claim_C9_witness :
    ∃ s', findSession (applyOps
        [Op.chat { message := "q", model := "m1", session_id := some ("s") }
           (fun _ _ => CompleteResult.success ("a")),
         Op.stream { message := "r", model := "m1", session_id := some ("s") }
           (fun _ _ => [Line.record (some ("b")) true]),
         Op.getS ("s")] stA) ("s") = some s' ∧
      s'.model = sessA.model ∧ sessA.messages.length ≤ s'.messages.length ∧ WfMsgs s'.messages :=
  claim_C9_invariants _ stA
    ⟨by
      intro p hp
      simp [stA] at hp
      rw [hp]
      decide, by
      intro p hp
      simp [stA] at hp
      simp only [hp, sessA]
      exact wfMsgs_nil⟩
    ("s") sessA (by decide)

end Talkflow
